import Mathlib

/-!
Shallow embedding of the signaling/relay server in `src/server.js` of the
`next-complete-vaani` repository.

The server keeps two in-memory registries:
  * `users`: a JavaScript object mapping each socket id (connection id) to a
    session record (`server.js` line 34);
  * `rooms`: a JavaScript object mapping each chat room id to a `Set` of user
    ids (`server.js` line 35).

JavaScript objects preserve insertion order of (string) keys, so both are
modelled as association lists `List (String × _)`; `jsGet`, `jsSet` and
`jsDelete` mirror property read, property assignment and the `delete`
operator.  JavaScript `Set`s are modelled as duplicate-free-by-construction
lists via `setAdd`.  Optional / possibly-`undefined` fields are `Option`.

Each socket event handler becomes a pure function from the explicit server
state (plus the handler's arguments) to the new state together with the list
of emitted events.  An emission records its target: a single connection
(`io.to(socketId)` / `socket.emit`), a transport room excluding the sender
(`socket.to(roomId)`), or a global broadcast excluding the sender
(`socket.broadcast.emit`).
-/

namespace Vaani

/-- Property read `m[k]`: first entry with the key, if any. -/
def jsGet (m : List (String × α)) (k : String) : Option α :=
  (m.find? (fun p => decide (p.1 = k))).map Prod.snd

/-- Property assignment `m[k] = v`: replace in place if the key exists,
otherwise append (JavaScript objects keep insertion order). -/
def jsSet (m : List (String × α)) (k : String) (v : α) : List (String × α) :=
  if m.any (fun p => decide (p.1 = k)) then
    m.map (fun p => if p.1 = k then (k, v) else p)
  else
    m ++ [(k, v)]

/-- The `delete m[k]` operator: drop every entry with the key. -/
def jsDelete (m : List (String × α)) (k : String) : List (String × α) :=
  m.filter (fun p => decide (p.1 ≠ k))

/-- `Set.prototype.add`: append unless already present. -/
def setAdd (s : List String) (x : String) : List String :=
  if x ∈ s then s else s ++ [x]

/-- Presence status of a session (`'online'` / `'offline'`). -/
inductive Status where
  | online
  | offline
deriving DecidableEq, Repr

/-- One entry of the `users` registry (`server.js` lines 159-166). -/
structure Session where
  socketId : String
  userId : String
  username : String
  status : Status
  lastActive : Nat
  preferredLanguage : String
deriving DecidableEq, Repr

/-- The decoded JWT identity attached to a socket (`socket.user`): a `userId`
plus an optional `username` and an optional nested `user.username`. -/
structure Credential where
  userId : String
  username : Option String
  nestedUsername : Option String
deriving DecidableEq, Repr

/-- The display-name resolution at connection time (`server.js` line 148):
`socket.user.username || socket.user.user?.username || 'Unknown'`. -/
def resolveUsername (c : Credential) : String :=
  match c.username with
  | some u => u
  | none =>
    match c.nestedUsername with
    | some u => u
    | none => "Unknown"

/-- `findUserByUserId` (`server.js` lines 38-40):
`Object.values(users).find(user => user.userId === userId)`. -/
def findUserByUserId (users : List (String × Session)) (userId : String) :
    Option Session :=
  (users.map Prod.snd).find? (fun u => decide (u.userId = userId))

/-- Delivery target of one emitted event. -/
inductive Target where
  | conn (connId : String)
  | room (roomId : String) (senderConn : String)
  | broadcast (senderConn : String)
deriving DecidableEq, Repr

/-- The chat-message envelope built by the `sendMessage` handler
(`server.js` lines 229-235).  `senderName` is the raw `socket.user.username`
field, which may be absent. -/
structure MessageEnv where
  senderId : String
  senderName : Option String
  content : Option String
  timestamp : Nat
  roomId : Option String
deriving DecidableEq, Repr

/-- One element of the `existingParticipants` list (`server.js` 393-397):
socket id plus the registry's `userId` / `username` for it, when registered. -/
structure Participant where
  socketId : String
  userId : Option String
  username : Option String
deriving DecidableEq, Repr

/-- Payloads of the outbound events the modelled handlers emit. -/
inductive Payload where
  | userStatusChange (userId : String) (status : Status)
  | languagePreferenceUpdated (language : String) (success : Bool)
  | userJoinedRoom (userId : String) (username : Option String) (roomId : String)
  | userLeftRoom (userId : String) (username : Option String) (roomId : String)
  | receiveMessage (message : MessageEnv)
  | messageSent (success : Bool) (message : MessageEnv)
  | incomingCall (fromId : String) (fromName : Option String)
      (offer : Option String) (callType : Option String) (roomId : Option String)
  | incomingCallDelivered (toId : Option String) (socketId : String)
  | userUnavailable (toId : Option String)
  | userJoinedGroupCall (userId : String) (username : Option String) (socketId : String)
  | existingParticipants (callRoomId : String) (participants : List Participant)
deriving DecidableEq, Repr

/-- One emitted event: a target plus a payload. -/
structure Emit where
  target : Target
  payload : Payload
deriving DecidableEq, Repr

/-- The shared server state: the `users` registry, the `rooms` object
(chat-room id ↦ set of user ids), and the transport's room groups
(room id ↦ set of socket ids, maintained by `socket.join`/`socket.leave`). -/
structure ServerState where
  users : List (String × Session)
  rooms : List (String × List String)
  trans : List (String × List String)
deriving DecidableEq, Repr

/-- The session record inserted on admission (`server.js` lines 159-166). -/
def newSession (connId : String) (cred : Credential) (now : Nat) : Session :=
  { socketId := connId
    userId := cred.userId
    username := resolveUsername cred
    status := Status.online
    lastActive := now
    preferredLanguage := "en" }

/-- Connection admission (`server.js` lines 147-172): delete every existing
entry with the same `userId` and a different socket id, insert the fresh
session, and broadcast `userStatusChange{online}`. -/
def register (users : List (String × Session)) (connId : String)
    (cred : Credential) (now : Nat) :
    List (String × Session) × List Emit :=
  let cleaned := users.filter
    (fun p => decide (¬(p.2.userId = cred.userId ∧ p.1 ≠ connId)))
  (jsSet cleaned connId (newSession connId cred now),
   [⟨Target.broadcast connId, Payload.userStatusChange cred.userId Status.online⟩])

/-- The `updateLanguagePreference` handler (`server.js` lines 179-188):
only when the payload carries a `language` and the sender's session exists is
the preference updated and the `languagePreferenceUpdated` ack emitted. -/
def updateLanguagePreference (users : List (String × Session)) (connId : String)
    (language : Option String) :
    List (String × Session) × List Emit :=
  match language with
  | some lang =>
    match jsGet users connId with
    | some sess =>
      (jsSet users connId { sess with preferredLanguage := lang },
       [⟨Target.conn connId, Payload.languagePreferenceUpdated lang true⟩])
    | none => (users, [])
  | none => (users, [])

/-- The `joinRoom` handler (`server.js` lines 191-205): `socket.join(roomId)`,
lazily create the chat-room set, add the user id, notify the room. -/
def joinRoom (st : ServerState) (connId : String) (cred : Credential)
    (roomId : String) : ServerState × List Emit :=
  let trans' := jsSet st.trans roomId (setAdd ((jsGet st.trans roomId).getD []) connId)
  let rooms' := jsSet st.rooms roomId (setAdd ((jsGet st.rooms roomId).getD []) cred.userId)
  ({ st with trans := trans', rooms := rooms' },
   [⟨Target.room roomId connId,
     Payload.userJoinedRoom cred.userId cred.username roomId⟩])

/-- The `leaveRoom` handler (`server.js` lines 207-223): `socket.leave(roomId)`,
remove the user id from the chat-room set when the room exists, delete the
room when its set becomes empty, notify the room. -/
def leaveRoom (st : ServerState) (connId : String) (cred : Credential)
    (roomId : String) : ServerState × List Emit :=
  let trans' :=
    match jsGet st.trans roomId with
    | some ms => jsSet st.trans roomId (ms.filter (fun m => decide (m ≠ connId)))
    | none => st.trans
  let rooms' :=
    match jsGet st.rooms roomId with
    | some ms =>
      let ms' := ms.filter (fun m => decide (m ≠ cred.userId))
      if ms'.length = 0 then jsDelete st.rooms roomId
      else jsSet st.rooms roomId ms'
    | none => st.rooms
  ({ st with trans := trans', rooms := rooms' },
   [⟨Target.room roomId connId,
     Payload.userLeftRoom cred.userId cred.username roomId⟩])

/-- The message envelope built by `sendMessage` (`server.js` lines 229-235):
`senderId` is the authenticated user id, `senderName` the raw
`socket.user.username` field, `timestamp` the relay time. -/
def mkMessage (cred : Credential) (content roomId : Option String) (now : Nat) :
    MessageEnv :=
  { senderId := cred.userId
    senderName := cred.username
    content := content
    timestamp := now
    roomId := roomId }

/-- The `sendMessage` handler (`server.js` lines 226-247): deliver to the
receiver's registered socket when `receiverId` resolves, else to the room when
`roomId` is given; always ack the sender with `messageSent`. -/
def sendMessage (st : ServerState) (connId : String) (cred : Credential)
    (receiverId roomId content : Option String) (now : Nat) :
    ServerState × List Emit :=
  let message := mkMessage cred content roomId now
  let deliveries :=
    match receiverId with
    | some rid =>
      match findUserByUserId st.users rid with
      | some receiverUser =>
        [⟨Target.conn receiverUser.socketId, Payload.receiveMessage message⟩]
      | none => []
    | none =>
      match roomId with
      | some r => [⟨Target.room r connId, Payload.receiveMessage message⟩]
      | none => []
  (st, deliveries ++ [⟨Target.conn connId, Payload.messageSent true message⟩])

/-- The `callUser` handler (`server.js` lines 272-306).  `live` is the set of
socket ids with a currently open channel (`io.sockets.sockets`).  With a
`roomId`, broadcast `incomingCall` to the room; otherwise resolve `to` via the
registry: emit to the target and ack the sender when the target's channel is
live, else delete the stale registry entry and tell the sender
`userUnavailable`; when `to` does not resolve, emit nothing. -/
def callUser (st : ServerState) (connId : String) (cred : Credential)
    (toId offer callType roomId : Option String) (live : List String) :
    ServerState × List Emit :=
  match roomId with
  | some r =>
    (st, [⟨Target.room r connId,
           Payload.incomingCall cred.userId cred.username offer callType (some r)⟩])
  | none =>
    let toUser :=
      match toId with
      | some t => findUserByUserId st.users t
      | none => none
    match toUser with
    | some tu =>
      if tu.socketId ∈ live then
        (st, [⟨Target.conn tu.socketId,
               Payload.incomingCall cred.userId cred.username offer callType none⟩,
              ⟨Target.conn connId, Payload.incomingCallDelivered toId tu.socketId⟩])
      else
        ({ st with users := jsDelete st.users tu.socketId },
         [⟨Target.conn connId, Payload.userUnavailable toId⟩])
    | none => (st, [])

/-- The `joinGroupCall` handler (`server.js` lines 378-405):
`socket.join(callRoomId)` on the transport, notify the room's other members
with `userJoinedGroupCall`, then send the joiner `existingParticipants` built
from the room's sockets (minus the joiner) resolved through the registry and
filtered to entries with a known `userId`.  The shared `rooms` object is not
touched. -/
def joinGroupCall (st : ServerState) (connId : String) (cred : Credential)
    (callRoomId : String) (joinUserId : Option String) :
    ServerState × List Emit :=
  let trans' := jsSet st.trans callRoomId
    (setAdd ((jsGet st.trans callRoomId).getD []) connId)
  let sockets := (jsGet trans' callRoomId).getD []
  let participants :=
    ((sockets.filter (fun sid => decide (sid ≠ connId))).map
      (fun sid =>
        { socketId := sid
          userId := (jsGet st.users sid).map Session.userId
          username := (jsGet st.users sid).map Session.username : Participant })).filter
      (fun p => p.userId.isSome)
  ({ st with trans := trans' },
   [⟨Target.room callRoomId connId,
     Payload.userJoinedGroupCall (joinUserId.getD cred.userId) cred.username connId⟩,
    ⟨Target.conn connId,
     Payload.existingParticipants callRoomId participants⟩])

/-- The `disconnect` handler (`server.js` lines 462-491).  When the socket is
still registered: mark the session offline with a refreshed `lastActive`,
broadcast `userStatusChange{offline}`, schedule the 5-minute deletion timer
(the returned `Bool`), and remove the user id from every chat room, deleting
rooms whose set becomes empty.  When the socket's registry entry is gone the
whole body is skipped. -/
def disconnect (st : ServerState) (connId : String) (cred : Credential)
    (now : Nat) : ServerState × List Emit × Bool :=
  match jsGet st.users connId with
  | some sess =>
    let users' := jsSet st.users connId
      { sess with status := Status.offline, lastActive := now }
    let rooms' := st.rooms.filterMap (fun p =>
      if cred.userId ∈ p.2 then
        let ms := p.2.filter (fun m => decide (m ≠ cred.userId))
        if ms.length = 0 then none else some (p.1, ms)
      else some p)
    ({ st with users := users', rooms := rooms' },
     [⟨Target.broadcast connId, Payload.userStatusChange cred.userId Status.offline⟩],
     true)
  | none => (st, [], false)

/-- The deferred deletion scheduled by `disconnect` (`server.js` lines
475-479): when the timer fires, delete the entry only if it still exists and
is still offline. -/
def cleanupTimerFire (users : List (String × Session)) (connId : String) :
    List (String × Session) :=
  match jsGet users connId with
  | some sess =>
    if sess.status = Status.offline then jsDelete users connId else users
  | none => users

/-- Which connections a target reaches: `conns` is the set of currently
connected socket ids (for global broadcast), `trans` the transport's room
membership at delivery time. -/
def Target.deliversTo (t : Target) (trans : List (String × List String))
    (conns : List String) (c : String) : Bool :=
  match t with
  | Target.conn i => decide (c = i)
  | Target.room r senderConn =>
    decide (c ≠ senderConn) && decide (c ∈ (jsGet trans r).getD [])
  | Target.broadcast senderConn =>
    decide (c ≠ senderConn) && decide (c ∈ conns)

/-- Number of emitted events whose payload satisfies `p` and which are
delivered to connection `c`. -/
def countDeliveries (emits : List Emit) (trans : List (String × List String))
    (conns : List String) (c : String) (p : Payload → Bool) : Nat :=
  (emits.filter (fun e => e.target.deliversTo trans conns c && p e.payload)).length

/-! ### Generic list lemmas -/

theorem find?_eq_head?_filter (p : α → Bool) (l : List α) :
    l.find? p = (l.filter p).head? := by
  induction l with
  | nil => rfl
  | cons a l ih =>
    by_cases h : p a
    · rw [List.find?_cons_of_pos l h, List.filter_cons_of_pos h, List.head?_cons]
    · rw [List.find?_cons_of_neg l h, List.filter_cons_of_neg h, ih]

theorem filter_map_comm (f : α → β) (p : β → Bool) (l : List α) :
    (l.map f).filter p = (l.filter (fun a => p (f a))).map f := by
  induction l with
  | nil => rfl
  | cons a l ih =>
    by_cases h : p (f a) <;> simp [List.filter_cons, h, ih]

theorem jsGet_mem {m : List (String × α)} {k : String} {v : α}
    (h : jsGet m k = some v) : (k, v) ∈ m := by
  unfold jsGet at h
  rcases Option.map_eq_some'.1 h with ⟨p, hp, hv⟩
  have hk := List.find?_some hp
  have hmem := List.mem_of_find?_eq_some hp
  simp only [decide_eq_true_eq] at hk
  rw [← hv, ← hk]
  exact hmem

theorem mem_jsSet {m : List (String × α)} {k : String} {v : α} {p : String × α}
    (h : p ∈ jsSet m k v) : p ∈ m ∨ p = (k, v) := by
  unfold jsSet at h
  split at h
  · rcases List.mem_map.1 h with ⟨q, hq, he⟩
    by_cases hqk : q.1 = k
    · rw [if_pos hqk] at he
      exact Or.inr he.symm
    · rw [if_neg hqk] at he
      exact Or.inl (he ▸ hq)
  · rcases List.mem_append.1 h with h | h
    · exact Or.inl h
    · exact Or.inr (List.mem_singleton.1 h)

/-! ### Registry lemmas

The key fact behind Invariant I1: updating key `k` in an association list in
which every entry carrying the user id `u` already sits at key `k`, with a
session whose user id is `u`, leaves exactly one entry carrying `u`. -/

theorem map_update_filter_userId (l : List (String × Session)) (k : String)
    (sess : Session) (u : String) (hu : sess.userId = u)
    (ha : ∀ p ∈ l, p.2.userId = u → p.1 = k)
    (hnd : (l.map Prod.fst).Nodup)
    (hk : k ∈ l.map Prod.fst) :
    (l.map (fun p => if p.1 = k then (k, sess) else p)).filter
      (fun p => decide (p.2.userId = u)) = [(k, sess)] := by
  induction l with
  | nil => simp at hk
  | cons a l ih =>
    simp only [List.map_cons, List.map_cons] at hnd hk
    by_cases hak : a.1 = k
    · have hnotk : k ∉ l.map Prod.fst := by
        rw [← hak]; exact (List.nodup_cons.1 hnd).1
      have htail : (l.map (fun p => if p.1 = k then (k, sess) else p)).filter
          (fun p => decide (p.2.userId = u)) = [] := by
        rw [List.filter_eq_nil_iff]
        intro q hq
        rcases List.mem_map.1 hq with ⟨r, hr, he⟩
        have hrk : r.1 ≠ k := fun hc => hnotk (List.mem_map.2 ⟨r, hr, hc⟩)
        have hru : r.2.userId ≠ u := fun hc => hrk (ha r (List.mem_cons_of_mem a hr) hc)
        simp only [hrk, if_neg hrk] at he
        simp [← he, hru]
      simp [List.filter_cons, hak, hu, htail]
    · have hau : ¬a.2.userId = u := fun hc => hak (ha a (List.mem_cons_self a l) hc)
      have hk' : k ∈ l.map Prod.fst := by
        rcases List.mem_cons.1 hk with hk1 | hk1
        · exact absurd hk1.symm hak
        · exact hk1
      rw [List.map_cons, if_neg hak, List.filter_cons]
      simp only [decide_eq_true_eq, if_neg hau]
      exact ih (fun p hp h => ha p (List.mem_cons_of_mem a hp) h)
        (List.nodup_cons.1 hnd).2 hk'

theorem jsSet_filter_userId (l : List (String × Session)) (k : String)
    (sess : Session) (u : String) (hu : sess.userId = u)
    (ha : ∀ p ∈ l, p.2.userId = u → p.1 = k)
    (hnd : (l.map Prod.fst).Nodup) :
    (jsSet l k sess).filter (fun p => decide (p.2.userId = u)) = [(k, sess)] := by
  unfold jsSet
  by_cases hany : l.any (fun p => decide (p.1 = k))
  · rw [if_pos hany]
    have hk : k ∈ l.map Prod.fst := by
      rcases List.any_eq_true.1 hany with ⟨p, hp, hpk⟩
      simp only [decide_eq_true_eq] at hpk
      exact List.mem_map.2 ⟨p, hp, hpk⟩
    exact map_update_filter_userId l k sess u hu ha hnd hk
  · rw [if_neg hany]
    have hnok : ∀ p ∈ l, p.1 ≠ k := by
      intro p hp hc
      exact hany (List.any_eq_true.2 ⟨p, hp, by simp [hc]⟩)
    have hl : l.filter (fun p => decide (p.2.userId = u)) = [] := by
      rw [List.filter_eq_nil_iff]
      intro p hp
      have : p.2.userId ≠ u := fun hc => hnok p hp (ha p hp hc)
      simp [this]
    simp [List.filter_append, hl, hu]

theorem findUserByUserId_jsSet (l : List (String × Session)) (k : String)
    (sess : Session) (u : String) (hu : sess.userId = u)
    (ha : ∀ p ∈ l, p.2.userId = u → p.1 = k)
    (hnd : (l.map Prod.fst).Nodup) :
    findUserByUserId (jsSet l k sess) u = some sess := by
  unfold findUserByUserId
  rw [find?_eq_head?_filter, filter_map_comm]
  rw [show (jsSet l k sess).filter (fun a => decide (a.2.userId = u))
      = [(k, sess)] from jsSet_filter_userId l k sess u hu ha hnd]
  rfl

theorem jsGet_jsDelete (m : List (String × α)) (k : String) :
    jsGet (jsDelete m k) k = none := by
  unfold jsGet jsDelete
  rw [Option.map_eq_none']
  rw [List.find?_eq_none]
  intro p hp
  have hne := List.of_mem_filter hp
  simp only [decide_eq_true_eq] at hne ⊢
  simpa using hne

theorem jsGet_jsSet (m : List (String × α)) (k : String) (v : α) :
    jsGet (jsSet m k v) k = some v := by
  unfold jsSet
  by_cases hany : m.any (fun p => decide (p.1 = k))
  · rw [if_pos hany]
    induction m with
    | nil => simp at hany
    | cons a l ih =>
      by_cases hak : a.1 = k
      · unfold jsGet
        rw [List.map_cons, if_pos hak,
          List.find?_cons_of_pos _ (by simp)]
        rfl
      · have hany' : l.any (fun p => decide (p.1 = k)) := by
          rcases List.any_eq_true.1 hany with ⟨p, hp, hpk⟩
          rcases List.mem_cons.1 hp with rfl | hp
          · simp only [decide_eq_true_eq] at hpk
            exact absurd hpk hak
          · exact List.any_eq_true.2 ⟨p, hp, hpk⟩
        unfold jsGet
        rw [List.map_cons, if_neg hak,
          List.find?_cons_of_neg _ (by simpa using hak)]
        exact ih hany'
  · rw [if_neg hany]
    have hnone : m.find? (fun p => decide (p.1 = k)) = none := by
      rw [List.find?_eq_none]
      intro p hp hc
      simp only [decide_eq_true_eq] at hc
      exact hany (List.any_eq_true.2 ⟨p, hp, by simp [hc]⟩)
    unfold jsGet
    rw [List.find?_append, hnone]
    simp [List.find?_cons_of_pos]

theorem mem_setAdd (s : List String) (x : String) : x ∈ setAdd s x := by
  unfold setAdd
  by_cases h : x ∈ s
  · rwa [if_pos h]
  · rw [if_neg h]
    simp

/-- C1 — after an admission for `cred.userId`, the registry holds exactly one
session with that user id, namely the freshly inserted one, so
`findUserByUserId` returns the session of the most recent admission. -/
theorem register_unique_userId_and_find (users : List (String × Session))
    (connId : String) (cred : Credential) (now : Nat)
    (hnd : (users.map Prod.fst).Nodup) :
    (((register users connId cred now).1.filter
        (fun p => decide (p.2.userId = cred.userId))).map Prod.snd
      = [newSession connId cred now]) ∧
    findUserByUserId (register users connId cred now).1 cred.userId
      = some (newSession connId cred now) := by
  have ha : ∀ p ∈ users.filter
      (fun p => decide (¬(p.2.userId = cred.userId ∧ p.1 ≠ connId))),
      p.2.userId = cred.userId → p.1 = connId := by
    intro p hp hpu
    have := List.of_mem_filter hp
    simp only [decide_eq_true_eq] at this
    by_contra hc
    exact this ⟨hpu, hc⟩
  have hnd' : ((users.filter
      (fun p => decide (¬(p.2.userId = cred.userId ∧ p.1 ≠ connId)))).map
        Prod.fst).Nodup :=
    hnd.sublist (List.Sublist.map Prod.fst (List.filter_sublist users))
  have hfilter := jsSet_filter_userId _ connId (newSession connId cred now)
    cred.userId rfl ha hnd'
  constructor
  · show ((jsSet _ connId (newSession connId cred now)).filter
        (fun p => decide (p.2.userId = cred.userId))).map Prod.snd = _
    rw [hfilter]; rfl
  · exact findUserByUserId_jsSet _ connId (newSession connId cred now)
      cred.userId rfl ha hnd'

/-- Witness for `register_unique_userId_and_find` at a concrete registry. -/
theorem register_unique_userId_and_find_witness :
    ((([(("c1" : String), newSession "c1" ⟨"uA", some "Alice", none⟩ 0),
        ("c2", newSession "c2" ⟨"uB", none, none⟩ 0)].map
          Prod.fst).Nodup) ∧
     (((register [("c1", newSession "c1" ⟨"uA", some "Alice", none⟩ 0),
          ("c2", newSession "c2" ⟨"uB", none, none⟩ 0)] "c3"
            ⟨"uA", some "Alice", none⟩ 7).1.filter
        (fun p => decide (p.2.userId = "uA"))).map Prod.snd
        = [newSession "c3" ⟨"uA", some "Alice", none⟩ 7]) ∧
     findUserByUserId (register [("c1", newSession "c1" ⟨"uA", some "Alice", none⟩ 0),
          ("c2", newSession "c2" ⟨"uB", none, none⟩ 0)] "c3"
            ⟨"uA", some "Alice", none⟩ 7).1 "uA"
        = some (newSession "c3" ⟨"uA", some "Alice", none⟩ 7)) := by
  refine ⟨by decide, ?_⟩
  have h := register_unique_userId_and_find
    [("c1", newSession "c1" ⟨"uA", some "Alice", none⟩ 0),
     ("c2", newSession "c2" ⟨"uB", none, none⟩ 0)] "c3"
    ⟨"uA", some "Alice", none⟩ 7 (by decide)
  exact h

/-! ### Payload classifiers used to count deliveries of one event kind -/

def Payload.isReceiveMessage : Payload → Bool
  | Payload.receiveMessage _ => true
  | _ => false

def Payload.isMessageSent : Payload → Bool
  | Payload.messageSent _ _ => true
  | _ => false

def Payload.isUserJoinedGroupCallFor (u : String) : Payload → Bool
  | Payload.userJoinedGroupCall uid _ _ => decide (uid = u)
  | _ => false

def Payload.isOfflineStatusFor (u : String) : Payload → Bool
  | Payload.userStatusChange uid s => decide (uid = u) && decide (s = Status.offline)
  | _ => false

/-- C2 — `sendMessage` with a `receiverId` that resolves to session `bs`
delivers exactly one `receiveMessage` to `bs`'s connection and exactly one
`messageSent` ack to the sender; with a `receiverId` that does not resolve, no
connection receives a `receiveMessage` while the sender still gets exactly one
ack. -/
theorem sendMessage_routing (st : ServerState) (connId : String)
    (cred : Credential) (rid : String) (content : Option String) (now : Nat)
    (trans : List (String × List String)) (conns : List String) :
    (∀ bs, findUserByUserId st.users rid = some bs →
      countDeliveries (sendMessage st connId cred (some rid) none content now).2
          trans conns bs.socketId Payload.isReceiveMessage = 1 ∧
      countDeliveries (sendMessage st connId cred (some rid) none content now).2
          trans conns connId Payload.isMessageSent = 1) ∧
    (findUserByUserId st.users rid = none →
      (∀ c, countDeliveries (sendMessage st connId cred (some rid) none content now).2
          trans conns c Payload.isReceiveMessage = 0) ∧
      countDeliveries (sendMessage st connId cred (some rid) none content now).2
          trans conns connId Payload.isMessageSent = 1) := by
  constructor
  · intro bs hbs
    constructor
    · simp [sendMessage, hbs, countDeliveries, Target.deliversTo,
        Payload.isReceiveMessage, Payload.isMessageSent, List.filter_cons]
    · simp [sendMessage, hbs, countDeliveries, Target.deliversTo,
        Payload.isReceiveMessage, Payload.isMessageSent, List.filter_cons]
  · intro hnone
    refine ⟨fun c => ?_, ?_⟩
    · simp [sendMessage, hnone, countDeliveries, Target.deliversTo,
        Payload.isReceiveMessage, List.filter_cons]
    · simp [sendMessage, hnone, countDeliveries, Target.deliversTo,
        Payload.isMessageSent, List.filter_cons]

/-- Witness for `sendMessage_routing`: a registry holding `uB` (resolved case)
and a lookup for `uZ` (unresolved case). -/
theorem sendMessage_routing_witness :
    (findUserByUserId [(("c2" : String), newSession "c2" ⟨"uB", none, none⟩ 0)] "uB"
        = some (newSession "c2" ⟨"uB", none, none⟩ 0)) ∧
    (countDeliveries (sendMessage ⟨[("c2", newSession "c2" ⟨"uB", none, none⟩ 0)], [], []⟩
        "c1" ⟨"uA", some "Alice", none⟩ (some "uB") none (some "hi") 5).2
        [] [] (newSession "c2" ⟨"uB", none, none⟩ 0).socketId Payload.isReceiveMessage = 1) ∧
    (findUserByUserId [(("c2" : String), newSession "c2" ⟨"uB", none, none⟩ 0)] "uZ" = none) ∧
    (countDeliveries (sendMessage ⟨[("c2", newSession "c2" ⟨"uB", none, none⟩ 0)], [], []⟩
        "c1" ⟨"uA", some "Alice", none⟩ (some "uZ") none (some "hi") 5).2
        [] [] "c1" Payload.isMessageSent = 1) := by
  refine ⟨by decide, ?_, by decide, ?_⟩
  · exact ((sendMessage_routing ⟨[("c2", newSession "c2" ⟨"uB", none, none⟩ 0)], [], []⟩
      "c1" ⟨"uA", some "Alice", none⟩ "uB" (some "hi") 5 [] []).1
      (newSession "c2" ⟨"uB", none, none⟩ 0) (by decide)).1
  · exact ((sendMessage_routing ⟨[("c2", newSession "c2" ⟨"uB", none, none⟩ 0)], [], []⟩
      "c1" ⟨"uA", some "Alice", none⟩ "uZ" (some "hi") 5 [] []).2 (by decide)).2

/-- C3 — the direct path of `callUser`: a resolved target with a live channel
gets `incomingCall` while the sender gets `incomingCallDelivered`; a resolved
target whose channel is not live costs it its stale registry entry while the
sender gets `userUnavailable`; an unresolved target produces no emission and
no state change. -/
theorem callUser_direct_routing (st : ServerState) (connId : String)
    (cred : Credential) (t : String) (offer callType : Option String)
    (live : List String) :
    (∀ tu, findUserByUserId st.users t = some tu → tu.socketId ∈ live →
      callUser st connId cred (some t) offer callType none live
        = (st, [⟨Target.conn tu.socketId,
                 Payload.incomingCall cred.userId cred.username offer callType none⟩,
                ⟨Target.conn connId,
                 Payload.incomingCallDelivered (some t) tu.socketId⟩])) ∧
    (∀ tu, findUserByUserId st.users t = some tu → tu.socketId ∉ live →
      jsGet (callUser st connId cred (some t) offer callType none live).1.users
          tu.socketId = none ∧
      (callUser st connId cred (some t) offer callType none live).2
        = [⟨Target.conn connId, Payload.userUnavailable (some t)⟩]) ∧
    (findUserByUserId st.users t = none →
      callUser st connId cred (some t) offer callType none live = (st, [])) := by
  refine ⟨?_, ?_, ?_⟩
  · intro tu htu hlive
    simp [callUser, htu, hlive]
  · intro tu htu hnot
    constructor
    · simp only [callUser, htu, if_neg hnot]
      exact jsGet_jsDelete st.users tu.socketId
    · simp [callUser, htu, hnot]
  · intro hnone
    simp [callUser, hnone]

/-- Witness for `callUser_direct_routing`: all three branches at a concrete
registry holding `uB` at socket `c2`. -/
theorem callUser_direct_routing_witness :
    ((callUser ⟨[("c2", newSession "c2" ⟨"uB", none, none⟩ 0)], [], []⟩
        "c1" ⟨"uA", some "Alice", none⟩ (some "uB") (some "off") (some "video") none
        ["c1", "c2"]).2
      = [⟨Target.conn "c2",
          Payload.incomingCall "uA" (some "Alice") (some "off") (some "video") none⟩,
         ⟨Target.conn "c1", Payload.incomingCallDelivered (some "uB") "c2"⟩]) ∧
    (jsGet (callUser ⟨[("c2", newSession "c2" ⟨"uB", none, none⟩ 0)], [], []⟩
        "c1" ⟨"uA", some "Alice", none⟩ (some "uB") (some "off") (some "video") none
        ["c1"]).1.users "c2" = none) ∧
    (callUser ⟨[("c2", newSession "c2" ⟨"uB", none, none⟩ 0)], [], []⟩
        "c1" ⟨"uA", some "Alice", none⟩ (some "uZ") none none none ["c1"]
      = (⟨[("c2", newSession "c2" ⟨"uB", none, none⟩ 0)], [], []⟩, [])) := by
  refine ⟨?_, ?_, ?_⟩
  · have h := ((callUser_direct_routing
      ⟨[("c2", newSession "c2" ⟨"uB", none, none⟩ 0)], [], []⟩
      "c1" ⟨"uA", some "Alice", none⟩ "uB" (some "off") (some "video")
      ["c1", "c2"]).1 (newSession "c2" ⟨"uB", none, none⟩ 0) (by decide) (by decide))
    rw [h]
    rfl
  · exact ((callUser_direct_routing
      ⟨[("c2", newSession "c2" ⟨"uB", none, none⟩ 0)], [], []⟩
      "c1" ⟨"uA", some "Alice", none⟩ "uB" (some "off") (some "video")
      ["c1"]).2.1 (newSession "c2" ⟨"uB", none, none⟩ 0) (by decide) (by decide)).1
  · exact (callUser_direct_routing
      ⟨[("c2", newSession "c2" ⟨"uB", none, none⟩ 0)], [], []⟩
      "c1" ⟨"uA", some "Alice", none⟩ "uZ" none none ["c1"]).2.2 (by decide)

/-- C5 counterexample — `joinGroupCall` never touches the shared `rooms`
state: joining call room `g1` from an empty state leaves `rooms` empty, so no
member set for `g1` contains the joiner's user id, contrary to the claim. -/
theorem joinGroupCall_rooms_cex :
    ((joinGroupCall ⟨[], [], []⟩ "c1" ⟨"uC", none, none⟩ "g1" none).1.rooms = []) ∧
    ¬(∃ ms, jsGet (joinGroupCall ⟨[], [], []⟩ "c1" ⟨"uC", none, none⟩ "g1"
        none).1.rooms "g1" = some ms ∧ "uC" ∈ ms) := by
  refine ⟨rfl, ?_⟩
  rintro ⟨ms, hms, -⟩
  simp [joinGroupCall, jsGet] at hms

/-- C5 amended — `joinGroupCall` adds the joiner's connection to the
transport's room group for `callRoomId` only; the shared `rooms` state (and
the registry) are unchanged, so the Room Directory's call-room namespace does
not gain the joiner's user id. -/
theorem joinGroupCall_transport_only (st : ServerState) (connId : String)
    (cred : Credential) (callRoomId : String) (joinUserId : Option String) :
    ((joinGroupCall st connId cred callRoomId joinUserId).1.rooms = st.rooms) ∧
    ((joinGroupCall st connId cred callRoomId joinUserId).1.users = st.users) ∧
    (∃ ms, jsGet (joinGroupCall st connId cred callRoomId joinUserId).1.trans
        callRoomId = some ms ∧ connId ∈ ms) := by
  refine ⟨rfl, rfl, ?_⟩
  refine ⟨setAdd ((jsGet st.trans callRoomId).getD []) connId, ?_, ?_⟩
  · exact jsGet_jsSet st.trans callRoomId _
  · exact mem_setAdd _ connId

/-- C8 counterexample — with `language` missing from the payload the handler
emits nothing at all: the `languagePreferenceUpdated` ack the claim promises
is not sent (the registry no-op part does hold). -/
theorem updateLanguagePreference_missing_cex :
    updateLanguagePreference
        [("c1", newSession "c1" ⟨"uA", some "Alice", none⟩ 0)] "c1" none
      = ([("c1", newSession "c1" ⟨"uA", some "Alice", none⟩ 0)], []) := by
  rfl

/-- C8 amended — a payload missing `language` makes the handler a complete
no-op: the registry is unchanged and no event (in particular no ack) is
emitted; when `language` is present and the sender's session exists, the
session's `preferredLanguage` is set to it and exactly the ack is emitted. -/
theorem updateLanguagePreference_behavior (users : List (String × Session))
    (connId : String) :
    (updateLanguagePreference users connId none = (users, [])) ∧
    (∀ lang sess, jsGet users connId = some sess →
      jsGet (updateLanguagePreference users connId (some lang)).1 connId
          = some { sess with preferredLanguage := lang } ∧
      (updateLanguagePreference users connId (some lang)).2
          = [⟨Target.conn connId, Payload.languagePreferenceUpdated lang true⟩]) := by
  constructor
  · rfl
  · intro lang sess hsess
    constructor
    · simp only [updateLanguagePreference, hsess]
      exact jsGet_jsSet users connId _
    · simp [updateLanguagePreference, hsess]

/-- Witness for `updateLanguagePreference_behavior` at a concrete registry. -/
theorem updateLanguagePreference_behavior_witness :
    (jsGet [(("c1" : String), newSession "c1" ⟨"uA", some "Alice", none⟩ 0)] "c1"
        = some (newSession "c1" ⟨"uA", some "Alice", none⟩ 0)) ∧
    jsGet (updateLanguagePreference
        [("c1", newSession "c1" ⟨"uA", some "Alice", none⟩ 0)] "c1" (some "hi")).1 "c1"
      = some { newSession "c1" ⟨"uA", some "Alice", none⟩ 0 with
                preferredLanguage := "hi" } := by
  refine ⟨by decide, ?_⟩
  exact ((updateLanguagePreference_behavior
    [("c1", newSession "c1" ⟨"uA", some "Alice", none⟩ 0)] "c1").2 "hi"
    (newSession "c1" ⟨"uA", some "Alice", none⟩ 0) (by decide)).1

/-- C9 counterexample — a credential with no username: the relayed envelope's
`senderName` is absent rather than the literal `"Unknown"` that the
registry-side display-name resolution would produce. -/
theorem sendMessage_senderName_cex :
    ((sendMessage ⟨[], [], []⟩ "c1" ⟨"uB", none, none⟩ none none (some "hi") 5).2
      = [⟨Target.conn "c1", Payload.messageSent true ⟨"uB", none, some "hi", 5, none⟩⟩]) ∧
    resolveUsername ⟨"uB", none, none⟩ = "Unknown" ∧
    (mkMessage ⟨"uB", none, none⟩ (some "hi") none 5).senderName
      ≠ some (resolveUsername ⟨"uB", none, none⟩) := by
  refine ⟨rfl, rfl, by decide⟩

/-- C9 amended — every envelope relayed by `sendMessage` carries the
authenticated sender identity and the relay-time timestamp: `senderId` is the
verified credential's user id and `senderName` is the credential's raw
`username` field (absent when the credential supplies none; the `"Unknown"`
fallback applies only to the registry's stored display name), never a
client-supplied sender field. -/
theorem sendMessage_envelope_identity (st : ServerState) (connId : String)
    (cred : Credential) (receiverId roomId content : Option String) (now : Nat) :
    ∀ e ∈ (sendMessage st connId cred receiverId roomId content now).2,
      (∀ m, e.payload = Payload.receiveMessage m →
        m.senderId = cred.userId ∧ m.senderName = cred.username ∧ m.timestamp = now) ∧
      (∀ s m, e.payload = Payload.messageSent s m →
        m.senderId = cred.userId ∧ m.senderName = cred.username ∧ m.timestamp = now) := by
  have hmk : (mkMessage cred content roomId now).senderId = cred.userId ∧
      (mkMessage cred content roomId now).senderName = cred.username ∧
      (mkMessage cred content roomId now).timestamp = now := ⟨rfl, rfl, rfl⟩
  intro e he
  simp only [sendMessage, List.mem_append] at he
  have hcase : e.payload = Payload.messageSent true (mkMessage cred content roomId now)
      ∨ e.payload = Payload.receiveMessage (mkMessage cred content roomId now) := by
    rcases he with h | h
    · right
      cases hrid : receiverId with
      | some rid =>
        simp only [hrid] at h
        cases hfind : findUserByUserId st.users rid with
        | some ru =>
          simp only [hfind, List.mem_singleton] at h
          rw [h]
        | none =>
          simp only [hfind] at h
          exact absurd h (List.not_mem_nil e)
      | none =>
        simp only [hrid] at h
        cases hroom : roomId with
        | some r =>
          simp only [hroom, List.mem_singleton] at h
          rw [h]
        | none =>
          simp only [hroom] at h
          exact absurd h (List.not_mem_nil e)
    · left
      simp only [List.mem_singleton] at h
      rw [h]
  rcases hcase with hp | hp
  · refine ⟨fun m hm => ?_, fun s m hm => ?_⟩
    · rw [hp] at hm
      simp at hm
    · rw [hp] at hm
      simp only [Payload.messageSent.injEq] at hm
      obtain ⟨-, rfl⟩ := hm
      exact hmk
  · refine ⟨fun m hm => ?_, fun s m hm => ?_⟩
    · rw [hp] at hm
      simp only [Payload.receiveMessage.injEq] at hm
      rw [← hm]
      exact hmk
    · rw [hp] at hm
      simp at hm

/-- Witness for `sendMessage_envelope_identity` at the sender's ack emission. -/
theorem sendMessage_envelope_identity_witness :
    (⟨Target.conn "c1", Payload.messageSent true ⟨"uB", none, some "hi", 5, none⟩⟩
        ∈ (sendMessage ⟨[], [], []⟩ "c1" ⟨"uB", none, none⟩ none none (some "hi") 5).2) ∧
    (MessageEnv.mk "uB" none (some "hi") 5 none).senderId = "uB" := by
  refine ⟨by decide, ?_⟩
  exact ((sendMessage_envelope_identity ⟨[], [], []⟩ "c1" ⟨"uB", none, none⟩
      none none (some "hi") 5
      ⟨Target.conn "c1", Payload.messageSent true ⟨"uB", none, some "hi", 5, none⟩⟩
      (by decide)).2 true ⟨"uB", none, some "hi", 5, none⟩ rfl).1

/-- C10 — a `disconnect` for a connection whose registry entry is gone (for
example evicted by a newer admission for the same user id) is a complete
no-op: no state change, no emission, no deletion timer. -/
theorem disconnect_unregistered_noop (st : ServerState) (connId : String)
    (cred : Credential) (now : Nat)
    (h : jsGet st.users connId = none) :
    disconnect st connId cred now = (st, [], false) := by
  unfold disconnect
  rw [h]

/-- Witness for `disconnect_unregistered_noop`: the stale socket `c1` closes
after its entry was superseded by the admission of `c2` for the same user. -/
theorem disconnect_unregistered_noop_witness :
    (jsGet (register [("c1", newSession "c1" ⟨"uA", some "Alice", none⟩ 0)]
        "c2" ⟨"uA", some "Alice", none⟩ 3).1 "c1" = none) ∧
    disconnect ⟨(register [("c1", newSession "c1" ⟨"uA", some "Alice", none⟩ 0)]
        "c2" ⟨"uA", some "Alice", none⟩ 3).1, [], []⟩ "c1" ⟨"uA", some "Alice", none⟩ 9
      = (⟨(register [("c1", newSession "c1" ⟨"uA", some "Alice", none⟩ 0)]
          "c2" ⟨"uA", some "Alice", none⟩ 3).1, [], []⟩, [], false) := by
  refine ⟨by decide, ?_⟩
  exact disconnect_unregistered_noop _ "c1" ⟨"uA", some "Alice", none⟩ 9 (by decide)

/-- C4 — joining a group call whose transport room already holds the
connections of registered users `sx` (at `xc`) and `sy` (at `yc`) plus an
unregistered connection `zc`: the joiner receives one `existingParticipants`
listing exactly the two resolvable participants and not itself, and each of
`xc`, `yc` is delivered exactly one `userJoinedGroupCall` for the joiner. -/
theorem joinGroupCall_snapshot (st : ServerState) (connId : String)
    (cred : Credential) (callRoomId : String) (xc yc zc : String)
    (sx sy : Session) (conns : List String)
    (htrans : jsGet st.trans callRoomId = some [xc, yc, zc])
    (hx : jsGet st.users xc = some sx)
    (hy : jsGet st.users yc = some sy)
    (hz : jsGet st.users zc = none)
    (hcx : connId ≠ xc) (hcy : connId ≠ yc) (hcz : connId ≠ zc) :
    ((joinGroupCall st connId cred callRoomId none).2
      = [⟨Target.room callRoomId connId,
          Payload.userJoinedGroupCall cred.userId cred.username connId⟩,
         ⟨Target.conn connId,
          Payload.existingParticipants callRoomId
            [⟨xc, some sx.userId, some sx.username⟩,
             ⟨yc, some sy.userId, some sy.username⟩]⟩]) ∧
    countDeliveries (joinGroupCall st connId cred callRoomId none).2
        (joinGroupCall st connId cred callRoomId none).1.trans conns xc
        (Payload.isUserJoinedGroupCallFor cred.userId) = 1 ∧
    countDeliveries (joinGroupCall st connId cred callRoomId none).2
        (joinGroupCall st connId cred callRoomId none).1.trans conns yc
        (Payload.isUserJoinedGroupCallFor cred.userId) = 1 := by
  have hmem : ¬connId ∈ [xc, yc, zc] := by
    simp [hcx, hcy, hcz]
  have hset : setAdd ((jsGet st.trans callRoomId).getD []) connId
      = [xc, yc, zc, connId] := by
    rw [htrans]
    unfold setAdd
    simp only [Option.getD_some]
    rw [if_neg hmem]
    rfl
  refine ⟨?_, ?_, ?_⟩
  · simp only [joinGroupCall, hset, jsGet_jsSet, Option.getD_some]
    simp [List.filter_cons, hx, hy, hz, Ne.symm hcx, Ne.symm hcy, Ne.symm hcz]
  · simp only [joinGroupCall, countDeliveries, hset, jsGet_jsSet,
      Target.deliversTo, Payload.isUserJoinedGroupCallFor]
    simp [List.filter_cons, jsGet_jsSet, Ne.symm hcx, hcx]
  · simp only [joinGroupCall, countDeliveries, hset, jsGet_jsSet,
      Target.deliversTo, Payload.isUserJoinedGroupCallFor]
    simp [List.filter_cons, jsGet_jsSet, Ne.symm hcy, hcy]

/-- Witness for `joinGroupCall_snapshot`: `uC` joins call room `g1` already
holding registered `uA`, `uB` and the unregistered socket `c9`. -/
theorem joinGroupCall_snapshot_witness :
    ((joinGroupCall ⟨[("c1", newSession "c1" ⟨"uA", some "Alice", none⟩ 0),
         ("c2", newSession "c2" ⟨"uB", none, none⟩ 0)], [],
        [("g1", ["c1", "c2", "c9"])]⟩ "c3" ⟨"uC", some "Cara", none⟩ "g1" none).2
      = [⟨Target.room "g1" "c3",
          Payload.userJoinedGroupCall "uC" (some "Cara") "c3"⟩,
         ⟨Target.conn "c3",
          Payload.existingParticipants "g1"
            [⟨"c1", some "uA", some "Alice"⟩,
             ⟨"c2", some "uB", some "Unknown"⟩]⟩]) ∧
    countDeliveries (joinGroupCall ⟨[("c1", newSession "c1" ⟨"uA", some "Alice", none⟩ 0),
         ("c2", newSession "c2" ⟨"uB", none, none⟩ 0)], [],
        [("g1", ["c1", "c2", "c9"])]⟩ "c3" ⟨"uC", some "Cara", none⟩ "g1" none).2
        (joinGroupCall ⟨[("c1", newSession "c1" ⟨"uA", some "Alice", none⟩ 0),
         ("c2", newSession "c2" ⟨"uB", none, none⟩ 0)], [],
        [("g1", ["c1", "c2", "c9"])]⟩ "c3" ⟨"uC", some "Cara", none⟩ "g1" none).1.trans
        [] "c1" (Payload.isUserJoinedGroupCallFor "uC") = 1 := by
  have h := joinGroupCall_snapshot
    ⟨[("c1", newSession "c1" ⟨"uA", some "Alice", none⟩ 0),
      ("c2", newSession "c2" ⟨"uB", none, none⟩ 0)], [],
     [("g1", ["c1", "c2", "c9"])]⟩ "c3" ⟨"uC", some "Cara", none⟩ "g1"
    "c1" "c2" "c9" (newSession "c1" ⟨"uA", some "Alice", none⟩ 0)
    (newSession "c2" ⟨"uB", none, none⟩ 0) []
    (by decide) (by decide) (by decide) (by decide)
    (by decide) (by decide) (by decide)
  exact ⟨h.1, h.2.1⟩

theorem mem_jsSet_eq_of_key {m : List (String × α)} {k : String} {v : α}
    {p : String × α} (h : p ∈ jsSet m k v) (hk : p.1 = k) : p = (k, v) := by
  unfold jsSet at h
  by_cases hany : m.any (fun q => decide (q.1 = k))
  · rw [if_pos hany] at h
    rcases List.mem_map.1 h with ⟨q, hq, he⟩
    by_cases hqk : q.1 = k
    · rw [if_pos hqk] at he
      exact he.symm
    · rw [if_neg hqk] at he
      rw [← he] at hk
      exact absurd hk hqk
  · rw [if_neg hany] at h
    rcases List.mem_append.1 h with h | h
    · exact absurd (List.any_eq_true.2 ⟨p, h, by simp [hk]⟩) hany
    · exact List.mem_singleton.1 h

theorem jsGet_eq_none (m : List (String × α)) (k : String)
    (h : ∀ p ∈ m, p.1 ≠ k) : jsGet m k = none := by
  unfold jsGet
  rw [Option.map_eq_none', List.find?_eq_none]
  intro p hp
  simpa using h p hp

theorem findUserByUserId_eq_none (l : List (String × Session)) (u : String)
    (h : ∀ p ∈ l, p.2.userId ≠ u) : findUserByUserId l u = none := by
  unfold findUserByUserId
  rw [List.find?_eq_none]
  intro s hs
  rcases List.mem_map.1 hs with ⟨p, hp, rfl⟩
  simpa using h p hp

/-- C6 — disconnecting a registered connection: the user id disappears from
every chat room (with emptied rooms deleted), `userStatusChange{offline}` is
broadcast exactly once, the registry still resolves the user id to the
session — now offline with refreshed `lastActive` — the deletion timer is
scheduled, firing the timer while still offline deletes the entry, and a
newer admission for the same user id under a different socket evicts it. -/
theorem disconnect_cleanup (st : ServerState) (connId : String)
    (cred : Credential) (now : Nat) (sess : Session)
    (hsess : jsGet st.users connId = some sess)
    (hcred : sess.userId = cred.userId)
    (huniq : ∀ p ∈ st.users, p.2.userId = cred.userId → p.1 = connId)
    (hnd : (st.users.map Prod.fst).Nodup)
    (hrooms : ∀ p ∈ st.rooms, p.2 ≠ []) :
    (∀ r ms, jsGet (disconnect st connId cred now).1.rooms r = some ms →
        cred.userId ∉ ms ∧ ms ≠ []) ∧
    ((disconnect st connId cred now).2.1
      = [⟨Target.broadcast connId,
          Payload.userStatusChange cred.userId Status.offline⟩]) ∧
    (findUserByUserId (disconnect st connId cred now).1.users cred.userId
      = some { sess with status := Status.offline, lastActive := now }) ∧
    ((disconnect st connId cred now).2.2 = true) ∧
    (findUserByUserId
        (cleanupTimerFire (disconnect st connId cred now).1.users connId)
        cred.userId = none) ∧
    (∀ connId2 now2, connId2 ≠ connId →
      jsGet (register (disconnect st connId cred now).1.users connId2 cred
          now2).1 connId = none) := by
  have hu2 : ({ sess with status := Status.offline, lastActive := now }
      : Session).userId = cred.userId := hcred
  refine ⟨?_, ?_, ?_, ?_, ?_, ?_⟩
  · intro r ms hms
    simp only [disconnect, hsess] at hms
    have hmem := jsGet_mem hms
    rcases List.mem_filterMap.1 hmem with ⟨q, hq, hfq⟩
    by_cases hin : cred.userId ∈ q.2
    · rw [if_pos hin] at hfq
      by_cases hlen : (q.2.filter (fun m => decide (m ≠ cred.userId))).length = 0
      · rw [if_pos hlen] at hfq
        exact absurd hfq (by simp)
      · rw [if_neg hlen] at hfq
        obtain he := Option.some.inj hfq
        have hms2 : ms = q.2.filter (fun m => decide (m ≠ cred.userId)) :=
          (congrArg Prod.snd he).symm
        constructor
        · intro hc
          rw [hms2] at hc
          have := List.of_mem_filter hc
          simp at this
        · intro hc
          rw [hms2] at hc
          exact hlen (by rw [hc]; rfl)
    · rw [if_neg hin] at hfq
      obtain he := Option.some.inj hfq
      have hms2 : ms = q.2 := (congrArg Prod.snd he).symm
      rw [hms2]
      exact ⟨hin, hrooms q hq⟩
  · simp [disconnect, hsess]
  · simp only [disconnect, hsess]
    exact findUserByUserId_jsSet st.users connId _ cred.userId hu2 huniq hnd
  · simp [disconnect, hsess]
  · simp only [disconnect, hsess]
    have hred : cleanupTimerFire (jsSet st.users connId
        { sess with status := Status.offline, lastActive := now }) connId
        = jsDelete (jsSet st.users connId
            { sess with status := Status.offline, lastActive := now }) connId := by
      simp [cleanupTimerFire, jsGet_jsSet]
    rw [hred]
    apply findUserByUserId_eq_none
    intro p hp
    have hpk : p.1 ≠ connId := by simpa using List.of_mem_filter hp
    have hpm := List.mem_of_mem_filter hp
    rcases mem_jsSet hpm with hm | he
    · intro hc
      exact hpk (huniq p hm hc)
    · exact absurd (congrArg Prod.fst he) hpk
  · intro connId2 now2 hne
    simp only [disconnect, register]
    rw [hsess]
    apply jsGet_eq_none
    intro p hp
    rcases mem_jsSet hp with hm | he
    · have hg := List.of_mem_filter hm
      simp only [decide_eq_true_eq] at hg
      have hpm := List.mem_of_mem_filter hm
      intro hpk
      have hpe := mem_jsSet_eq_of_key hpm hpk
      apply hg
      constructor
      · rw [hpe]
        exact hcred
      · rw [hpk]
        exact Ne.symm hne
    · rw [he]
      exact hne

/-- Witness for `disconnect_cleanup`: `uA` at socket `c1`, member of room
`r1` alongside `uB`, disconnects. -/
theorem disconnect_cleanup_witness :
    ((disconnect ⟨[("c1", newSession "c1" ⟨"uA", some "Alice", none⟩ 0)],
        [("r1", ["uA", "uB"]), ("r2", ["uA"])], []⟩ "c1"
        ⟨"uA", some "Alice", none⟩ 9).2.1
      = [⟨Target.broadcast "c1", Payload.userStatusChange "uA" Status.offline⟩]) ∧
    (findUserByUserId (disconnect ⟨[("c1", newSession "c1" ⟨"uA", some "Alice", none⟩ 0)],
        [("r1", ["uA", "uB"]), ("r2", ["uA"])], []⟩ "c1"
        ⟨"uA", some "Alice", none⟩ 9).1.users "uA"
      = some { newSession "c1" ⟨"uA", some "Alice", none⟩ 0 with
               status := Status.offline, lastActive := 9 }) := by
  have h := disconnect_cleanup
    ⟨[("c1", newSession "c1" ⟨"uA", some "Alice", none⟩ 0)],
     [("r1", ["uA", "uB"]), ("r2", ["uA"])], []⟩ "c1"
    ⟨"uA", some "Alice", none⟩ 9 (newSession "c1" ⟨"uA", some "Alice", none⟩ 0)
    (by decide) (by decide) (by decide) (by decide) (by decide)
  exact ⟨h.2.1, h.2.2.1⟩

/-- The room-mutating inbound events of the server: `joinRoom`, `leaveRoom`
and `disconnect`. -/
inductive RoomOp where
  | join (connId : String) (cred : Credential) (roomId : String)
  | leave (connId : String) (cred : Credential) (roomId : String)
  | disc (connId : String) (cred : Credential) (now : Nat)

/-- State transition of one room-mutating event. -/
def applyRoomOp (st : ServerState) (op : RoomOp) : ServerState :=
  match op with
  | RoomOp.join c cr r => (joinRoom st c cr r).1
  | RoomOp.leave c cr r => (leaveRoom st c cr r).1
  | RoomOp.disc c cr n => (disconnect st c cr n).1

/-- Invariant I2 on the shared `rooms` state: no room entry with an empty
member set. -/
def roomsNonempty (st : ServerState) : Prop :=
  ∀ p ∈ st.rooms, p.2 ≠ []

theorem setAdd_ne_nil (s : List String) (x : String) : setAdd s x ≠ [] := by
  unfold setAdd
  by_cases h : x ∈ s
  · rw [if_pos h]
    exact List.ne_nil_of_mem h
  · rw [if_neg h]
    simp

theorem applyRoomOp_preserves (op : RoomOp) (st : ServerState)
    (h : roomsNonempty st) : roomsNonempty (applyRoomOp st op) := by
  intro p hp
  cases op with
  | join c cr r =>
    simp only [applyRoomOp, joinRoom] at hp
    rcases mem_jsSet hp with hm | he
    · exact h p hm
    · rw [he]
      exact setAdd_ne_nil _ _
  | leave c cr r =>
    simp only [applyRoomOp, leaveRoom] at hp
    cases hr : jsGet st.rooms r with
    | none =>
      simp only [hr] at hp
      exact h p hp
    | some ms =>
      simp only [hr] at hp
      by_cases hlen : (ms.filter (fun m => decide (m ≠ cr.userId))).length = 0
      · rw [if_pos hlen] at hp
        exact h p (List.mem_of_mem_filter hp)
      · rw [if_neg hlen] at hp
        rcases mem_jsSet hp with hm | he
        · exact h p hm
        · rw [he]
          intro hc
          have hc2 : List.filter (fun m => decide (m ≠ cr.userId)) ms = [] := hc
          exact hlen (by rw [hc2]; rfl)
  | disc c cr n =>
    simp only [applyRoomOp, disconnect] at hp
    cases hs : jsGet st.users c with
    | none =>
      simp only [hs] at hp
      exact h p hp
    | some sess =>
      simp only [hs] at hp
      rcases List.mem_filterMap.1 hp with ⟨q, hq, hfq⟩
      by_cases hin : cr.userId ∈ q.2
      · rw [if_pos hin] at hfq
        by_cases hlen : (q.2.filter (fun m => decide (m ≠ cr.userId))).length = 0
        · rw [if_pos hlen] at hfq
          exact absurd hfq (by simp)
        · rw [if_neg hlen] at hfq
          obtain he := Option.some.inj hfq
          rw [← he]
          intro hc
          exact hlen (by rw [show (q.1, q.2.filter
            (fun m => decide (m ≠ cr.userId))).2 = q.2.filter
              (fun m => decide (m ≠ cr.userId)) from rfl] at hc; rw [hc]; rfl)
      · rw [if_neg hin] at hfq
        obtain he := Option.some.inj hfq
        rw [← he]
        exact h q hq

/-- C7 — Invariant I2: across every sequence of `joinRoom`, `leaveRoom` and
`disconnect` events, starting from any state whose rooms are all nonempty, no
room in the shared `rooms` state is ever left with an empty member set:
rooms are created only together with their first member and deleted the
moment their member set empties. -/
theorem rooms_never_empty (ops : List RoomOp) (st : ServerState)
    (h : roomsNonempty st) :
    roomsNonempty (ops.foldl applyRoomOp st) := by
  induction ops generalizing st with
  | nil => exact h
  | cons op ops ih => exact ih (applyRoomOp st op) (applyRoomOp_preserves op st h)

/-- Witness for `rooms_never_empty`: a concrete join/join/leave/disconnect
sequence from the empty state. -/
theorem rooms_never_empty_witness :
    roomsNonempty (List.foldl applyRoomOp ⟨[], [], []⟩
      [RoomOp.join "c1" ⟨"uA", some "Alice", none⟩ "r1",
       RoomOp.join "c2" ⟨"uB", none, none⟩ "r1",
       RoomOp.leave "c1" ⟨"uA", some "Alice", none⟩ "r1",
       RoomOp.disc "c2" ⟨"uB", none, none⟩ 9]) :=
  rooms_never_empty _ ⟨[], [], []⟩ (by intro p hp; simp at hp)

end Vaani
